import Mathlib

/-!
Shallow embedding of the draft-and-scoring core of the golf-pickem-league
backend (FastAPI + SQLAlchemy).  The relational store is modelled as lists
of records; UUID primary keys become `Nat`, timestamps become `Int`,
nullable columns become `Option`.  The route handlers
`add_player_to_team`, `remove_player_from_team`, `get_available_players`
(src/backend/app/routes/teams.py) and the service functions
`calculate_team_score`, `calculate_league_standings`
(src/backend/app/services/scoring_service.py) are translated as pure
functions over a DB snapshot; an HTTPException raised before any mutation
is modelled as `Except.error` (no new state is produced, so the ledger is
unchanged by construction).
-/

/-- Row of the leagues table (models/league.py, class League).  Only the
columns the core reads are kept: `tournament_id`, `team_size`,
`draft_deadline` (a UTC instant, modelled as an integer timestamp). -/
structure LeagueRec where
  id : Nat
  tournament_id : Nat
  team_size : Nat
  draft_deadline : Int
  deriving DecidableEq, Repr

/-- Row of the teams table (models/league.py, class Team). -/
structure TeamRec where
  id : Nat
  league_id : Nat
  user_id : Nat
  team_name : String
  deriving DecidableEq, Repr

/-- Row of the players table (models/tournament.py, class Player). -/
structure PlayerRec where
  id : Nat
  last_name : String
  full_name : String
  deriving DecidableEq, Repr

/-- Row of the tournament_players table (models/tournament.py, class
TournamentPlayer): registration of a player for a tournament. -/
structure TournamentPlayerRec where
  tournament_id : Nat
  player_id : Nat
  deriving DecidableEq, Repr

/-- Row of the team_players table (models/league.py, class TeamPlayer):
one roster slot.  The surrogate primary key and drafted_at timestamp are
not read by the core and are omitted. -/
structure TeamPlayerRec where
  team_id : Nat
  player_id : Nat
  deriving DecidableEq, Repr

/-- Row of the player_scores table (models/tournament.py, class
PlayerScore).  `round_score` is never read by the core; `total_score`,
`position` and `made_cut` are nullable columns. -/
structure PlayerScoreRec where
  tournament_id : Nat
  player_id : Nat
  round : Nat
  total_score : Option Int
  position : Option Int
  made_cut : Option Bool
  deriving DecidableEq, Repr

/-- Row of the users table (models/user.py); only `username` is read by
the standings builder. -/
structure UserRec where
  id : Nat
  username : String
  deriving DecidableEq, Repr

/-- A snapshot of the relational store.  `team_players` is the mutable
roster ledger; all other tables are read-only from the core's view. -/
structure DB where
  leagues : List LeagueRec
  teams : List TeamRec
  users : List UserRec
  players : List PlayerRec
  tournament_players : List TournamentPlayerRec
  team_players : List TeamPlayerRec
  player_scores : List PlayerScoreRec
  deriving DecidableEq, Repr

/-- Outcomes of the draft/drop/available endpoints that are raised as
HTTPExceptions in routes/teams.py.  `LeagueMissing` stands for the team's
league relationship resolving to no row (an AttributeError crash in the
source); it is ruled out by the well-formedness hypotheses of every
theorem below. -/
inductive DraftError where
  | TeamNotFound
  | Forbidden
  | DeadlineExpired
  | PlayerNotFound
  | PlayerNotEligible
  | PlayerAlreadyDrafted
  | RosterFull
  | PlayerNotOnTeam
  | LeagueMissing
  deriving DecidableEq, Repr

/-- `db.query(Team).filter(Team.id == team_id).first()`. -/
def findTeam (db : DB) (team_id : Nat) : Option TeamRec :=
  db.teams.find? (fun t => t.id == team_id)

/-- `team.league`: the league row the team's foreign key points at. -/
def findLeague (db : DB) (league_id : Nat) : Option LeagueRec :=
  db.leagues.find? (fun l => l.id == league_id)

/-- Ids of the teams of one league:
`[t.id for t in db.query(Team).filter(Team.league_id == league_id).all()]`. -/
def leagueTeamIds (db : DB) (league_id : Nat) : List Nat :=
  (db.teams.filter (fun t => t.league_id == league_id)).map (fun t => t.id)

/-- `db.query(TeamPlayer).filter(TeamPlayer.team_id == team_id).all()`. -/
def teamRoster (db : DB) (team_id : Nat) : List TeamPlayerRec :=
  db.team_players.filter (fun tp => tp.team_id == team_id)

/-- `db.query(TeamPlayer).filter(TeamPlayer.team_id == team_id).count()`. -/
def rosterCount (db : DB) (team_id : Nat) : Nat :=
  (teamRoster db team_id).length

/-- The existing-draft query of the draft handler and of the
available-players handler: first roster slot of the league holding the
given player. -/
def findLeagueDraft (db : DB) (league_id player_id : Nat) : Option TeamPlayerRec :=
  db.team_players.find? (fun tp =>
    (leagueTeamIds db league_id).contains tp.team_id && tp.player_id == player_id)

/-- Number of roster slots of teams of the given league holding the given
player; the cross-team exclusivity invariant bounds it by one. -/
def leagueSlotCount (db : DB) (league_id player_id : Nat) : Nat :=
  (db.team_players.filter (fun tp =>
    (leagueTeamIds db league_id).contains tp.team_id && tp.player_id == player_id)).length

/-- The PlayerScore lookup shared by calculate_team_score and
calculate_league_standings:
`db.query(PlayerScore).filter(tournament_id ==, player_id ==, round ==).first()`. -/
def lookupScore (db : DB) (tournament_id round_num player_id : Nat) : Option PlayerScoreRec :=
  db.player_scores.find? (fun s =>
    s.tournament_id == tournament_id && s.player_id == player_id && s.round == round_num)

/-- Byte-wise lexicographic comparison of character lists; the
executable model of the SQL `ORDER BY last_name` collation used by the
available-players query. -/
def charListLe : List Char → List Char → Bool
  | [], _ => true
  | _ :: _, [] => false
  | a :: as, b :: bs =>
    if a.toNat < b.toNat then true
    else if b.toNat < a.toNat then false
    else charListLe as bs

/-- Lexicographic order on strings, by code point. -/
def strLe (a b : String) : Bool := charListLe a.data b.data

/-- POST /api/teams/\x7bteam_id\x7d/players (routes/teams.py,
add_player_to_team): the draft operation.  `now` is the
`datetime.now(timezone.utc)` instant of the call.  On success the new
roster slot is appended to the ledger; every error path raises before the
insert, so the snapshot is unchanged. -/
def add_player_to_team (db : DB) (team_id player_id user_id : Nat) (now : Int) :
    Except DraftError DB :=
  match findTeam db team_id with
  | none => .error .TeamNotFound
  | some team =>
    if team.user_id != user_id then .error .Forbidden
    else
      match findLeague db team.league_id with
      | none => .error .LeagueMissing
      | some league =>
        if now > league.draft_deadline then .error .DeadlineExpired
        else
          match db.players.find? (fun p => p.id == player_id) with
          | none => .error .PlayerNotFound
          | some _ =>
            match db.tournament_players.find? (fun tp =>
                tp.tournament_id == league.tournament_id && tp.player_id == player_id) with
            | none => .error .PlayerNotEligible
            | some _ =>
              match findLeagueDraft db league.id player_id with
              | some _ => .error .PlayerAlreadyDrafted
              | none =>
                if rosterCount db team_id ≥ league.team_size then .error .RosterFull
                else .ok { db with team_players :=
                  db.team_players ++ [{ team_id := team_id, player_id := player_id }] }

/-- DELETE /api/teams/\x7bteam_id\x7d/players/\x7bplayer_id\x7d
(routes/teams.py, remove_player_from_team): the drop operation.  The
handler deletes the first row matching (team_id, player_id). -/
def remove_player_from_team (db : DB) (team_id player_id user_id : Nat) (now : Int) :
    Except DraftError DB :=
  match findTeam db team_id with
  | none => .error .TeamNotFound
  | some team =>
    if team.user_id != user_id then .error .Forbidden
    else
      match findLeague db team.league_id with
      | none => .error .LeagueMissing
      | some league =>
        if now > league.draft_deadline then .error .DeadlineExpired
        else
          match db.team_players.find? (fun tp =>
              tp.team_id == team_id && tp.player_id == player_id) with
          | none => .error .PlayerNotOnTeam
          | some _ => .ok { db with team_players :=
              db.team_players.eraseP (fun tp =>
                tp.team_id == team_id && tp.player_id == player_id) }

/-- calculate_team_score (services/scoring_service.py): sums
`total_score` over the roster for one round, returning `none` unless the
roster is non-empty and every slot found a score row with a non-null
`total_score`.  The loop accumulating (total_score, players_with_scores)
is the fold below. -/
def calculate_team_score (db : DB) (team_id : Nat) (round_num : Nat) : Option Int :=
  match findTeam db team_id with
  | none => none
  | some team =>
    match findLeague db team.league_id with
    | none => none
    | some league =>
      let team_players := teamRoster db team_id
      if team_players.isEmpty then none
      else
        let acc := team_players.foldl (fun (acc : Int × Nat) tp =>
          match lookupScore db league.tournament_id round_num tp.player_id with
          | some s =>
            match s.total_score with
            | some v => (acc.1 + v, acc.2 + 1)
            | none => acc
          | none => acc) (0, 0)
        if acc.2 < team_players.length then none else some acc.1

/-- One entry of the per-player breakdown list built inside
calculate_league_standings.  `score`/`position`/`made_cut` are the JSON
values, null modelled as `none`. -/
structure PlayerStanding where
  player_id : Nat
  player_name : String
  score : Option Int
  position : Option Int
  made_cut : Option Bool
  deriving DecidableEq, Repr

/-- One entry of the standings list built by calculate_league_standings;
`rank` is filled in by the final enumeration pass. -/
structure TeamStanding where
  team_id : Nat
  team_name : String
  user_id : Nat
  user : Option String
  total_score : Option Int
  players : List PlayerStanding
  rank : Option Nat
  deriving DecidableEq, Repr

/-- The per-player dict of calculate_league_standings:
score and position are null when no score row exists, while made_cut
falls back to True (`score.made_cut if score else True`).  The player's
full name comes from the player row; the source would crash on a dangling
player_id, so the empty-string fallback is ruled out by theorem
hypotheses where the name matters. -/
def playerEntry (db : DB) (tournament_id round_num : Nat) (tp : TeamPlayerRec) :
    PlayerStanding :=
  let score := lookupScore db tournament_id round_num tp.player_id
  { player_id := tp.player_id
    player_name := match db.players.find? (fun p => p.id == tp.player_id) with
      | some p => p.full_name
      | none => ""
    score := match score with | some s => s.total_score | none => none
    position := match score with | some s => s.position | none => none
    made_cut := match score with | some s => s.made_cut | none => some true }

/-- The standings dict built for one team inside the loop of
calculate_league_standings, before ranking. -/
def buildStanding (db : DB) (league : LeagueRec) (round_num : Nat) (team : TeamRec) :
    TeamStanding :=
  { team_id := team.id
    team_name := team.team_name
    user_id := team.user_id
    user := (db.users.find? (fun u => u.id == team.user_id)).map (fun u => u.username)
    total_score := calculate_team_score db team.id round_num
    players := (teamRoster db team.id).map (playerEntry db league.tournament_id round_num)
    rank := none }

/-- The sort key comparison of
`standings.sort(key=lambda x: (x[total_score] is None, x[total_score]))`:
lexicographic on (is-none, value), so `none` compares above every number. -/
def scoreKeyLe (a b : Option Int) : Bool :=
  match a, b with
  | none, none => true
  | none, some _ => false
  | some _, none => true
  | some x, some y => x ≤ y

/-- Insert into a sorted list in front of the first element not below the
new one; building block of the stable sort. -/
def sortInsert (le : α → α → Bool) (a : α) : List α → List α
  | [] => [a]
  | b :: l => if le a b then a :: b :: l else b :: sortInsert le a l

/-- Stable insertion sort; Python's `list.sort` is a stable sort by key,
and for a total transitive comparison a stable sort's output is uniquely
determined, so this is a faithful model of it. -/
def sortStable (le : α → α → Bool) : List α → List α
  | [] => []
  | a :: l => sortInsert le a (sortStable le l)

/-- The rank-assignment pass of calculate_league_standings:
`for i, standing in enumerate(standings)` sets rank i+1 for entries with
a score and null for the rest. -/
def assignRanksFrom (i : Nat) : List TeamStanding → List TeamStanding
  | [] => []
  | s :: l =>
    (if s.total_score.isSome then { s with rank := some (i + 1) }
     else { s with rank := none }) :: assignRanksFrom (i + 1) l

/-- calculate_league_standings (services/scoring_service.py): builds one
standing per team of the league, sorts by (score is None, score) — a
stable sort, lower first, unscored teams at the bottom — then assigns
1-based ranks to scored entries and null ranks to the rest.  An unknown
league id yields the empty list. -/
def calculate_league_standings (db : DB) (league_id : Nat) (round_num : Nat) :
    List TeamStanding :=
  match findLeague db league_id with
  | none => []
  | some league =>
    let teams := db.teams.filter (fun t => t.league_id == league_id)
    let standings := teams.map (buildStanding db league round_num)
    assignRanksFrom 0
      (sortStable (fun a b => scoreKeyLe a.total_score b.total_score) standings)

/-- GET /api/teams/\x7bteam_id\x7d/available-players (routes/teams.py,
get_available_players): players registered for the league's tournament
and not drafted by any team of the league, ordered by last name. -/
def get_available_players (db : DB) (team_id user_id : Nat) :
    Except DraftError (List PlayerRec) :=
  match findTeam db team_id with
  | none => .error .TeamNotFound
  | some team =>
    match db.teams.find? (fun t =>
        t.league_id == team.league_id && t.user_id == user_id) with
    | none => .error .Forbidden
    | some _ =>
      match findLeague db team.league_id with
      | none => .error .LeagueMissing
      | some league =>
        let tournament_player_ids :=
          (db.tournament_players.filter (fun tp =>
            tp.tournament_id == league.tournament_id)).map (fun tp => tp.player_id)
        let drafted_player_ids :=
          (db.team_players.filter (fun tp =>
            (leagueTeamIds db league.id).contains tp.team_id)).map (fun tp => tp.player_id)
        let available_player_ids :=
          tournament_player_ids.filter (fun pid => !drafted_player_ids.contains pid)
        .ok (sortStable (fun a b => strLe a.last_name b.last_name)
          (db.players.filter (fun p => available_player_ids.contains p.id)))

/-- Well-formedness of a snapshot: team primary keys are unique.  The
teams table's UUID primary key guarantees this in the store. -/
def WF (db : DB) : Prop :=
  (db.teams.map (fun t => t.id)).Nodup

/-- One transition of the roster ledger: a successful draft or drop. -/
inductive Step : DB → DB → Prop
  | draft (db : DB) (team_id player_id user_id : Nat) (now : Int) (db₂ : DB)
      (h : add_player_to_team db team_id player_id user_id now = .ok db₂) :
      Step db db₂
  | drop (db : DB) (team_id player_id user_id : Nat) (now : Int) (db₂ : DB)
      (h : remove_player_from_team db team_id player_id user_id now = .ok db₂) :
      Step db db₂

/-- Reachable states of the roster ledger: start from a well-formed
snapshot with an empty ledger and apply successful drafts and drops. -/
inductive Reachable : DB → Prop
  | init (db : DB) (hwf : WF db) (hempty : db.team_players = []) : Reachable db
  | step (db db₂ : DB) (h : Reachable db) (hs : Step db db₂) : Reachable db₂

/-- The teams of a league currently holding a given player on their
roster; cross-team exclusivity says there is at most one. -/
def teamsHolding (db : DB) (league_id player_id : Nat) : List TeamRec :=
  db.teams.filter (fun t => t.league_id == league_id &&
    db.team_players.any (fun tp => tp.team_id == t.id && tp.player_id == player_id))

/-- Cross-team exclusivity at the ledger level: every (league, player)
pair is covered by at most one roster slot. -/
def ExclusivityInv (db : DB) : Prop :=
  ∀ league_id player_id, leagueSlotCount db league_id player_id ≤ 1

/-- Roster-cap invariant: no team of a league exceeds the league's
`team_size`. -/
def RosterCapInv (db : DB) : Prop :=
  ∀ t ∈ db.teams, ∀ lg, findLeague db t.league_id = some lg →
    rosterCount db t.id ≤ lg.team_size

/-- The per-player contribution read by the scoring loop: the round's
`total_score` when a score row exists and its `total_score` column is
non-null (`if score and score.total_score is not None`), otherwise
nothing. -/
def scoreOf (db : DB) (tournament_id round_num : Nat) (tp : TeamPlayerRec) : Option Int :=
  (lookupScore db tournament_id round_num tp.player_id).bind (fun s => s.total_score)

/-- A concrete snapshot used to witness the theorems below: one league
(tournament 100, team_size 2, deadline 50) with teams A/B/C; players
5, 6, 8 have final-round scores -3, -5, -2, player 7 has no score row,
player 9 is registered but undrafted, player 20 exists but is not
registered.  Team A holds 5 and 6 (score -8), team B holds 7 (no
score), team C holds 8 (score -2). -/
def dbW : DB :=
  { leagues := [{ id := 0, tournament_id := 100, team_size := 2, draft_deadline := 50 }]
    teams := [{ id := 1, league_id := 0, user_id := 10, team_name := "A" },
              { id := 2, league_id := 0, user_id := 11, team_name := "B" },
              { id := 3, league_id := 0, user_id := 12, team_name := "C" }]
    users := [{ id := 10, username := "u10" }, { id := 11, username := "u11" },
              { id := 12, username := "u12" }]
    players := [{ id := 5, last_name := "Smith", full_name := "Al Smith" },
                { id := 6, last_name := "Brown", full_name := "Bo Brown" },
                { id := 7, last_name := "Adams", full_name := "Cy Adams" },
                { id := 8, last_name := "Young", full_name := "Dee Young" },
                { id := 9, last_name := "Zed", full_name := "Ed Zed" },
                { id := 20, last_name := "Quinn", full_name := "Fay Quinn" }]
    tournament_players := [{ tournament_id := 100, player_id := 5 },
                           { tournament_id := 100, player_id := 6 },
                           { tournament_id := 100, player_id := 7 },
                           { tournament_id := 100, player_id := 8 },
                           { tournament_id := 100, player_id := 9 }]
    team_players := [{ team_id := 1, player_id := 5 }, { team_id := 1, player_id := 6 },
                     { team_id := 2, player_id := 7 }, { team_id := 3, player_id := 8 }]
    player_scores := [{ tournament_id := 100, player_id := 5, round := 4,
                        total_score := some (-3), position := some 1, made_cut := some true },
                      { tournament_id := 100, player_id := 6, round := 4,
                        total_score := some (-5), position := some 2, made_cut := some true },
                      { tournament_id := 100, player_id := 8, round := 4,
                        total_score := some (-2), position := some 3, made_cut := some true }] }

/-- The witness snapshot with an empty roster ledger: the initial state
of the reachability relation. -/
def dbW0 : DB := { dbW with team_players := [] }

/-- The standings entry of team A in the witness snapshot. -/
def sW_A : TeamStanding :=
  { team_id := 1, team_name := "A", user_id := 10, user := some "u10",
    total_score := some (-8),
    players := [{ player_id := 5, player_name := "Al Smith", score := some (-3),
                  position := some 1, made_cut := some true },
                { player_id := 6, player_name := "Bo Brown", score := some (-5),
                  position := some 2, made_cut := some true }],
    rank := some 1 }

/-- The standings entry of team C in the witness snapshot. -/
def sW_C : TeamStanding :=
  { team_id := 3, team_name := "C", user_id := 12, user := some "u12",
    total_score := some (-2),
    players := [{ player_id := 8, player_name := "Dee Young", score := some (-2),
                  position := some 3, made_cut := some true }],
    rank := some 2 }

/-- The standings entry of team B (unscored) in the witness snapshot. -/
def sW_B : TeamStanding :=
  { team_id := 2, team_name := "B", user_id := 11, user := some "u11",
    total_score := none,
    players := [{ player_id := 7, player_name := "Cy Adams", score := none,
                  position := none, made_cut := some true }],
    rank := none }

/-! ### Generic lemmas about the stable insertion sort -/

theorem mem_sortInsert {le : α → α → Bool} {a x : α} :
    ∀ {l : List α}, x ∈ sortInsert le a l ↔ x = a ∨ x ∈ l
  | [] => by simp [sortInsert]
  | b :: l => by
    simp only [sortInsert]
    by_cases h : le a b = true
    · simp [h]
    · simp only [if_neg h, List.mem_cons, mem_sortInsert (l := l)]
      tauto

theorem mem_sortStable {le : α → α → Bool} {x : α} :
    ∀ {l : List α}, x ∈ sortStable le l ↔ x ∈ l
  | [] => Iff.rfl
  | a :: l => by
    simp only [sortStable, mem_sortInsert, List.mem_cons, mem_sortStable (l := l)]

theorem sortInsert_pairwise {le : α → α → Bool}
    (htot : ∀ a b, le a b = false → le b a = true)
    (htrans : ∀ a b c, le a b = true → le b c = true → le a c = true)
    (a : α) :
    ∀ {l : List α}, l.Pairwise (fun x y => le x y = true) →
      (sortInsert le a l).Pairwise (fun x y => le x y = true)
  | [], _ => by simp [sortInsert]
  | b :: l, h => by
    simp only [sortInsert]
    rcases List.pairwise_cons.mp h with ⟨hb, hl⟩
    by_cases hab : le a b = true
    · rw [if_pos hab]
      refine List.pairwise_cons.mpr ⟨?_, h⟩
      intro x hx
      rcases List.mem_cons.mp hx with rfl | hx
      · exact hab
      · exact htrans a b x hab (hb x hx)
    · rw [if_neg hab]
      refine List.pairwise_cons.mpr ⟨?_, sortInsert_pairwise htot htrans a hl⟩
      intro x hx
      rcases mem_sortInsert.mp hx with h₁ | hx
      · rw [h₁]
        exact htot a b (Bool.eq_false_iff.mpr hab)
      · exact hb x hx

theorem sortStable_pairwise {le : α → α → Bool}
    (htot : ∀ a b, le a b = false → le b a = true)
    (htrans : ∀ a b c, le a b = true → le b c = true → le a c = true) :
    ∀ (l : List α), (sortStable le l).Pairwise (fun x y => le x y = true)
  | [] => List.Pairwise.nil
  | a :: l => sortInsert_pairwise htot htrans a (sortStable_pairwise htot htrans l)

theorem filter_sortInsert {le : α → α → Bool} {p : α → Bool} (a : α)
    (ha : ∀ b, p a = true → p b = true → le a b = true) :
    ∀ (l : List α), (sortInsert le a l).filter p =
      if p a then a :: l.filter p else l.filter p
  | [] => by cases hpa : p a <;> simp [sortInsert, List.filter_cons, hpa]
  | b :: l => by
    simp only [sortInsert]
    by_cases hab : le a b = true
    · rw [if_pos hab]
      cases hpa : p a <;> simp [List.filter_cons, hpa]
    · rw [if_neg hab]
      cases hpa : p a
      · simp only [List.filter_cons, filter_sortInsert a ha l, hpa, if_neg]
        cases p b <;> simp
      · have hpb : p b = false := by
          cases hb : p b
          · rfl
          · exact absurd (ha b hpa hb) hab
        simp [List.filter_cons, hpb, filter_sortInsert a ha l, hpa]

theorem filter_sortStable {le : α → α → Bool} {p : α → Bool}
    (hp : ∀ a b, p a = true → p b = true → le a b = true) :
    ∀ (l : List α), (sortStable le l).filter p = l.filter p
  | [] => rfl
  | a :: l => by
    rw [sortStable, filter_sortInsert a (hp a) (sortStable le l),
      filter_sortStable hp l, List.filter_cons]

/-! ### Facts about the score-key comparison -/

theorem scoreKeyLe_total : ∀ a b : Option Int, scoreKeyLe a b = false → scoreKeyLe b a = true := by
  intro a b h
  cases a <;> cases b <;> simp_all [scoreKeyLe] <;> omega

theorem scoreKeyLe_trans : ∀ a b c : Option Int,
    scoreKeyLe a b = true → scoreKeyLe b c = true → scoreKeyLe a c = true := by
  intro a b c h₁ h₂
  cases a <;> cases b <;> cases c <;> simp_all [scoreKeyLe] <;> omega

theorem scoreKeyLe_refl : ∀ a : Option Int, scoreKeyLe a a = true := by
  intro a
  cases a <;> simp [scoreKeyLe]

theorem charListLe_total : ∀ a b : List Char, charListLe a b = false → charListLe b a = true
  | [], _, h => by simp [charListLe] at h
  | _ :: _, [], _ => rfl
  | a :: as, b :: bs, h => by
    simp only [charListLe] at h ⊢
    rcases Nat.lt_trichotomy a.toNat b.toNat with hab | hab | hab
    · rw [if_pos hab] at h
      exact absurd h (by simp)
    · rw [if_neg (by omega), if_neg (by omega)] at h
      rw [if_neg (by omega), if_neg (by omega)]
      exact charListLe_total as bs h
    · rw [if_pos (by omega)]

theorem charListLe_trans : ∀ a b c : List Char, charListLe a b = true →
    charListLe b c = true → charListLe a c = true
  | [], _, _, _, _ => rfl
  | _ :: _, [], _, h₁, _ => by simp [charListLe] at h₁
  | _ :: _, _ :: _, [], _, h₂ => by simp [charListLe] at h₂
  | a :: as, b :: bs, c :: cs, h₁, h₂ => by
    simp only [charListLe] at h₁ h₂ ⊢
    rcases Nat.lt_trichotomy a.toNat b.toNat with hab | hab | hab
    · rcases Nat.lt_trichotomy b.toNat c.toNat with hbc | hbc | hbc
      · rw [if_pos (by omega)]
      · rw [if_pos (by omega)]
      · rw [if_neg (by omega), if_pos (by omega)] at h₂
        exact absurd h₂ (by simp)
    · rcases Nat.lt_trichotomy b.toNat c.toNat with hbc | hbc | hbc
      · rw [if_pos (by omega)]
      · rw [if_neg (by omega), if_neg (by omega)] at h₁
        rw [if_neg (by omega), if_neg (by omega)] at h₂
        rw [if_neg (by omega), if_neg (by omega)]
        exact charListLe_trans as bs cs h₁ h₂
      · rw [if_neg (by omega), if_pos (by omega)] at h₂
        exact absurd h₂ (by simp)
    · rw [if_neg (by omega), if_pos (by omega)] at h₁
      exact absurd h₁ (by simp)

/-! ### Inversion of successful draft and drop calls -/

theorem add_ok_spec {db : DB} {team_id player_id user_id : Nat} {now : Int} {db₂ : DB}
    (h : add_player_to_team db team_id player_id user_id now = .ok db₂) :
    ∃ team league,
      findTeam db team_id = some team ∧
      team.user_id = user_id ∧
      findLeague db team.league_id = some league ∧
      now ≤ league.draft_deadline ∧
      findLeagueDraft db league.id player_id = none ∧
      rosterCount db team_id < league.team_size ∧
      db₂ = { db with team_players :=
        db.team_players ++ [{ team_id := team_id, player_id := player_id }] } := by
  unfold add_player_to_team at h
  split at h
  · simp at h
  rename_i team hteam
  split at h
  · simp at h
  rename_i howner
  split at h
  · simp at h
  rename_i league hleague
  split at h
  · simp at h
  rename_i hdl
  split at h
  · simp at h
  rename_i p hp
  split at h
  · simp at h
  rename_i reg hreg
  split at h
  · simp at h
  rename_i tp0 hdraft
  split at h
  · simp at h
  rename_i hfull
  refine ⟨team, league, hteam, ?_, hleague, not_lt.mp hdl, hdraft, not_le.mp hfull, ?_⟩
  · simpa [bne] using howner
  · exact ((Except.ok.injEq _ _ ▸ h)).symm

theorem remove_ok_spec {db : DB} {team_id player_id user_id : Nat} {now : Int} {db₂ : DB}
    (h : remove_player_from_team db team_id player_id user_id now = .ok db₂) :
    ∃ team league tp0,
      findTeam db team_id = some team ∧
      team.user_id = user_id ∧
      findLeague db team.league_id = some league ∧
      now ≤ league.draft_deadline ∧
      db.team_players.find? (fun tp =>
        tp.team_id == team_id && tp.player_id == player_id) = some tp0 ∧
      db₂ = { db with team_players :=
        db.team_players.eraseP (fun tp =>
          tp.team_id == team_id && tp.player_id == player_id) } := by
  unfold remove_player_from_team at h
  split at h
  · simp at h
  rename_i team hteam
  split at h
  · simp at h
  rename_i howner
  split at h
  · simp at h
  rename_i league hleague
  split at h
  · simp at h
  rename_i hdl
  split at h
  · simp at h
  rename_i tp0 hslot
  refine ⟨team, league, tp0, hteam, ?_, hleague, not_lt.mp hdl, hslot, ?_⟩
  · simpa [bne] using howner
  · exact ((Except.ok.injEq _ _ ▸ h)).symm

/-! ### Preservation of the ledger invariants along draft/drop steps -/

theorem team_eq_of_id_eq {db : DB} (hwf : WF db) {t₁ t₂ : TeamRec}
    (h₁ : t₁ ∈ db.teams) (h₂ : t₂ ∈ db.teams) (hid : t₁.id = t₂.id) : t₁ = t₂ :=
  List.inj_on_of_nodup_map hwf h₁ h₂ hid

theorem rosterCount_append_slot (db : DB) (tid pid x : Nat) :
    rosterCount { db with team_players :=
        db.team_players ++ [{ team_id := tid, player_id := pid }] } x =
      rosterCount db x + (if tid == x then 1 else 0) := by
  simp only [rosterCount, teamRoster, List.filter_append, List.length_append]
  cases h : (tid == x) <;> simp [List.filter, h]

theorem leagueSlotCount_append_slot (db : DB) (tid pid lid p : Nat) :
    leagueSlotCount { db with team_players :=
        db.team_players ++ [{ team_id := tid, player_id := pid }] } lid p =
      leagueSlotCount db lid p +
        (if (leagueTeamIds db lid).contains tid && pid == p then 1 else 0) := by
  simp only [leagueSlotCount, List.filter_append, List.length_append,
    List.filter_singleton]
  have hids : leagueTeamIds { db with team_players :=
      db.team_players ++ [{ team_id := tid, player_id := pid }] } lid =
      leagueTeamIds db lid := rfl
  rw [hids]
  cases h : ((leagueTeamIds db lid).contains tid && pid == p) <;> simp [h]

theorem rosterCount_eraseP_le (db : DB) (q : TeamPlayerRec → Bool) (x : Nat) :
    rosterCount { db with team_players := db.team_players.eraseP q } x ≤
      rosterCount db x := by
  simp only [rosterCount, teamRoster]
  exact ((List.eraseP_sublist (p := q) db.team_players).filter _).length_le

theorem leagueSlotCount_eraseP_le (db : DB) (q : TeamPlayerRec → Bool) (lid p : Nat) :
    leagueSlotCount { db with team_players := db.team_players.eraseP q } lid p ≤
      leagueSlotCount db lid p := by
  simp only [leagueSlotCount]
  have hids : leagueTeamIds { db with team_players := db.team_players.eraseP q } lid =
      leagueTeamIds db lid := rfl
  rw [hids]
  exact ((List.eraseP_sublist (p := q) db.team_players).filter _).length_le

theorem exclusivity_preserved_add {db : DB} {tid pid uid : Nat} {now : Int} {db₂ : DB}
    (hwf : WF db) (hinv : ExclusivityInv db)
    (h : add_player_to_team db tid pid uid now = .ok db₂) :
    ExclusivityInv db₂ := by
  obtain ⟨team, league, hteam, -, hleague, -, hdraft, -, rfl⟩ := add_ok_spec h
  intro lid p
  rw [leagueSlotCount_append_slot]
  by_cases hcond : ((leagueTeamIds db lid).contains tid && pid == p) = true
  · rw [if_pos hcond]
    have hcond₂ := hcond
    simp only [Bool.and_eq_true] at hcond₂
    obtain ⟨hcont, hpid⟩ := hcond₂
    have hpid₂ : pid = p := by simpa using hpid
    have hmem : tid ∈ leagueTeamIds db lid := by simpa using hcont
    obtain ⟨t, htf, htid⟩ := List.mem_map.mp hmem
    obtain ⟨htmem, htl⟩ := List.mem_filter.mp htf
    have hteamid : team.id = tid := by simpa using List.find?_some hteam
    have hteq : t = team :=
      team_eq_of_id_eq hwf htmem (List.mem_of_find?_eq_some hteam) (by rw [htid, hteamid])
    have hlid : lid = team.league_id := by
      have htl₂ : t.league_id = lid := by simpa using htl
      rw [← hteq, htl₂]
    have hlgid : league.id = team.league_id := by
      simpa using List.find?_some hleague
    have hzero : leagueSlotCount db lid p = 0 := by
      have hall := List.find?_eq_none.mp hdraft
      have : ∀ tp ∈ db.team_players,
          ¬((leagueTeamIds db lid).contains tp.team_id && tp.player_id == p) = true := by
        intro tp htp
        rw [hlid, ← hlgid, ← hpid₂]
        exact hall tp htp
      simp only [leagueSlotCount, List.length_eq_zero]
      exact List.filter_eq_nil_iff.mpr this
    rw [hzero]
  · rw [if_neg hcond]
    simpa using hinv lid p

theorem rostercap_preserved_add {db : DB} {tid pid uid : Nat} {now : Int} {db₂ : DB}
    (hwf : WF db) (hinv : RosterCapInv db)
    (h : add_player_to_team db tid pid uid now = .ok db₂) :
    RosterCapInv db₂ := by
  obtain ⟨team, league, hteam, -, hleague, -, -, hroom, rfl⟩ := add_ok_spec h
  intro t ht lg hlg
  rw [rosterCount_append_slot]
  by_cases hc : (tid == t.id) = true
  · rw [if_pos hc]
    have hteamid : team.id = tid := by simpa using List.find?_some hteam
    have hc₂ : tid = t.id := by simpa using hc
    have hteq : t = team := by
      refine team_eq_of_id_eq hwf ht (List.mem_of_find?_eq_some hteam) ?_
      rw [hteamid]
      exact hc₂.symm
    have hlg₂ : findLeague db team.league_id = some lg := by rw [← hteq]; exact hlg
    have hlgeq : lg = league := by
      rw [hlg₂] at hleague
      exact Option.some_inj.mp hleague
    rw [← hc₂, hlgeq]
    omega
  · rw [if_neg hc]
    simpa using hinv t ht lg hlg

theorem reachable_invariants {db : DB} (h : Reachable db) :
    WF db ∧ ExclusivityInv db ∧ RosterCapInv db := by
  induction h with
  | init db hwf hempty =>
    refine ⟨hwf, ?_, ?_⟩
    · intro lid p
      simp [leagueSlotCount, hempty]
    · intro t ht lg hlg
      simp [rosterCount, teamRoster, hempty]
  | step db db₂ hr hs ih =>
    obtain ⟨hwf, hexcl, hcap⟩ := ih
    cases hs with
      | draft tid pid uid now dbx hadd =>
        have hwf₂ := hwf
        obtain ⟨team, league, -, -, -, -, -, -, rfl⟩ := add_ok_spec hadd
        exact ⟨hwf₂, exclusivity_preserved_add hwf hexcl hadd,
          rostercap_preserved_add hwf hcap hadd⟩
      | drop tid pid uid now dbx hdrop =>
        obtain ⟨team, league, tp0, -, -, -, -, -, rfl⟩ := remove_ok_spec hdrop
        refine ⟨hwf, ?_, ?_⟩
        · intro lid p
          exact le_trans (leagueSlotCount_eraseP_le db _ lid p) (hexcl lid p)
        · intro t ht lg hlg
          exact le_trans (rosterCount_eraseP_le db _ t.id) (hcap t ht lg hlg)

/-! ### The scoring loop computes the sum and the count of present scores -/

theorem score_fold_spec (db : DB) (tournament_id round_num : Nat) :
    ∀ (l : List TeamPlayerRec) (t0 : Int) (c0 : Nat),
      l.foldl (fun (acc : Int × Nat) tp =>
        match lookupScore db tournament_id round_num tp.player_id with
        | some s =>
          match s.total_score with
          | some v => (acc.1 + v, acc.2 + 1)
          | none => acc
        | none => acc) (t0, c0) =
      (t0 + (l.filterMap (scoreOf db tournament_id round_num)).sum,
       c0 + l.countP (fun tp => (scoreOf db tournament_id round_num tp).isSome))
  | [], t0, c0 => by simp
  | tp :: l, t0, c0 => by
    cases hs : lookupScore db tournament_id round_num tp.player_id with
    | none =>
      have hsc : scoreOf db tournament_id round_num tp = none := by simp [scoreOf, hs]
      simp only [List.foldl_cons, List.filterMap_cons, List.countP_cons, hs, hsc]
      rw [score_fold_spec db tournament_id round_num l t0 c0]
      simp
    | some s =>
      cases hv : s.total_score with
      | none =>
        have hsc : scoreOf db tournament_id round_num tp = none := by
          simp [scoreOf, hs, hv]
        simp only [List.foldl_cons, List.filterMap_cons, List.countP_cons, hs, hv, hsc]
        rw [score_fold_spec db tournament_id round_num l t0 c0]
        simp
      | some v =>
        have hsc : scoreOf db tournament_id round_num tp = some v := by
          simp [scoreOf, hs, hv]
        simp only [List.foldl_cons, List.filterMap_cons, List.countP_cons, hs, hv, hsc]
        rw [score_fold_spec db tournament_id round_num l (t0 + v) (c0 + 1)]
        simp only [List.sum_cons, Option.isSome_some, if_true, Prod.mk.injEq]
        constructor
        · omega
        · omega


/-! ### Claim theorems -/

/-- C3: team score is all-or-nothing.  For a team of a league,
`calculate_team_score` is defined iff the roster is non-empty and every
roster slot finds a score row with a non-null `total_score` for the
queried round in the league's tournament, in which case it is the
signed-integer sum of those values; otherwise it is `none`, never a
partial sum. -/
theorem team_score_all_or_nothing (db : DB) (team_id round_num : Nat)
    (team : TeamRec) (league : LeagueRec)
    (hteam : findTeam db team_id = some team)
    (hleague : findLeague db team.league_id = some league) :
    calculate_team_score db team_id round_num =
      if teamRoster db team_id ≠ [] ∧
          ∀ tp ∈ teamRoster db team_id,
            (scoreOf db league.tournament_id round_num tp).isSome
      then some (((teamRoster db team_id).filterMap
        (scoreOf db league.tournament_id round_num)).sum)
      else none := by
  unfold calculate_team_score
  split
  · rename_i hn
    rw [hteam] at hn
    simp at hn
  · rename_i t ht
    rw [hteam] at ht
    obtain rfl : t = team := by simpa using ht.symm
    split
    · rename_i hn
      rw [hleague] at hn
      simp at hn
    · rename_i lg hlg
      rw [hleague] at hlg
      obtain rfl : league = lg := by simpa using hlg
      by_cases hemp : (teamRoster db team_id).isEmpty = true
      · have hnil : teamRoster db team_id = [] := by simpa using hemp
        simp [hemp, hnil]
      · have hnil : teamRoster db team_id ≠ [] := by simpa using hemp
        simp only [hemp, if_false, Bool.false_eq_true]
        rw [score_fold_spec db league.tournament_id round_num (teamRoster db team_id) 0 0]
        have hle := List.countP_le_length
          (p := fun tp => (scoreOf db league.tournament_id round_num tp).isSome)
          (l := teamRoster db team_id)
        by_cases hall : ∀ tp ∈ teamRoster db team_id,
            (scoreOf db league.tournament_id round_num tp).isSome = true
        · have hcnt := List.countP_eq_length.mpr hall
          rw [if_neg (by simp [hcnt]), if_pos ⟨hnil, hall⟩]
          simp
        · have hcnt : List.countP (fun tp => (scoreOf db league.tournament_id round_num tp).isSome)
              (teamRoster db team_id) < (teamRoster db team_id).length :=
            lt_of_le_of_ne hle (fun hEq => hall (List.countP_eq_length.mp hEq))
          rw [if_pos (by simpa using hcnt), if_neg (by tauto)]

/-- Witness for C3 at the concrete snapshot: team A's roster (players
with -3 and -5) sums to -8, and team B (one unscored player) gets
`none`. -/
theorem team_score_all_or_nothing_witness :
    (calculate_team_score dbW 1 4 =
      if teamRoster dbW 1 ≠ [] ∧
          ∀ tp ∈ teamRoster dbW 1, (scoreOf dbW 100 4 tp).isSome
      then some (((teamRoster dbW 1).filterMap (scoreOf dbW 100 4)).sum)
      else none) ∧
    calculate_team_score dbW 1 4 = some (-8) ∧
    calculate_team_score dbW 2 4 = none :=
  ⟨team_score_all_or_nothing dbW 1 4
      { id := 1, league_id := 0, user_id := 10, team_name := "A" }
      { id := 0, tournament_id := 100, team_size := 2, draft_deadline := 50 }
      rfl rfl,
    by decide, by decide⟩

/-! ### Evaluation of the draft and drop handlers once team and league resolve -/

theorem add_eval (db : DB) (team_id player_id user_id : Nat) (now : Int)
    (team : TeamRec) (league : LeagueRec)
    (hteam : findTeam db team_id = some team)
    (hleague : findLeague db team.league_id = some league) :
    add_player_to_team db team_id player_id user_id now =
      if team.user_id ≠ user_id then .error .Forbidden
      else if now > league.draft_deadline then .error .DeadlineExpired
      else if db.players.find? (fun p => p.id == player_id) = none then
        .error .PlayerNotFound
      else if db.tournament_players.find? (fun tp =>
          tp.tournament_id == league.tournament_id && tp.player_id == player_id) = none then
        .error .PlayerNotEligible
      else if findLeagueDraft db league.id player_id ≠ none then
        .error .PlayerAlreadyDrafted
      else if rosterCount db team_id ≥ league.team_size then
        .error .RosterFull
      else .ok { db with team_players :=
        db.team_players ++ [{ team_id := team_id, player_id := player_id }] } := by
  unfold add_player_to_team
  split
  · rename_i hn
    rw [hteam] at hn
    simp at hn
  · rename_i t ht
    rw [hteam] at ht
    obtain rfl : team = t := by simpa using ht
    by_cases howner : team.user_id = user_id
    · have hb : (team.user_id != user_id) = false := by simp [howner]
      rw [if_neg (by simp [hb]), if_neg (by simp [howner])]
      split
      · rename_i hn
        rw [hleague] at hn
        simp at hn
      · rename_i lg hlg
        rw [hleague] at hlg
        obtain rfl : league = lg := by simpa using hlg
        by_cases hdl : now > league.draft_deadline
        · rw [if_pos hdl, if_pos hdl]
        · rw [if_neg hdl, if_neg hdl]
          split
          · rename_i hn
            rw [if_pos hn]
          · rename_i pp hpp
            have h1 : db.players.find? (fun p => p.id == player_id) ≠ none := by
              simp [hpp]
            rw [if_neg h1]
            split
            · rename_i hn
              rw [if_pos hn]
            · rename_i reg hreg
              have h2 : db.tournament_players.find? (fun tp =>
                  tp.tournament_id == league.tournament_id &&
                    tp.player_id == player_id) ≠ none := by
                simp [hreg]
              rw [if_neg h2]
              split
              · rename_i tp0 hd
                have h3 : findLeagueDraft db league.id player_id ≠ none := by
                  simp [hd]
                rw [if_pos h3]
              · rename_i hd
                have h3 : ¬(findLeagueDraft db league.id player_id ≠ none) :=
                  fun hc => hc hd
                rw [if_neg h3]
    · have hb : (team.user_id != user_id) = true := by simp [bne, howner]
      rw [if_pos hb, if_pos howner]

theorem remove_eval (db : DB) (team_id player_id user_id : Nat) (now : Int)
    (team : TeamRec) (league : LeagueRec)
    (hteam : findTeam db team_id = some team)
    (hleague : findLeague db team.league_id = some league) :
    remove_player_from_team db team_id player_id user_id now =
      if team.user_id ≠ user_id then .error .Forbidden
      else if now > league.draft_deadline then .error .DeadlineExpired
      else if db.team_players.find? (fun tp =>
          tp.team_id == team_id && tp.player_id == player_id) = none then
        .error .PlayerNotOnTeam
      else .ok { db with team_players :=
        db.team_players.eraseP (fun tp =>
          tp.team_id == team_id && tp.player_id == player_id) } := by
  unfold remove_player_from_team
  split
  · rename_i hn
    rw [hteam] at hn
    simp at hn
  · rename_i t ht
    rw [hteam] at ht
    obtain rfl : team = t := by simpa using ht
    by_cases howner : team.user_id = user_id
    · have hb : (team.user_id != user_id) = false := by simp [howner]
      rw [if_neg (by simp [hb]), if_neg (by simp [howner])]
      split
      · rename_i hn
        rw [hleague] at hn
        simp at hn
      · rename_i lg hlg
        rw [hleague] at hlg
        obtain rfl : league = lg := by simpa using hlg
        by_cases hdl : now > league.draft_deadline
        · rw [if_pos hdl, if_pos hdl]
        · rw [if_neg hdl, if_neg hdl]
          split
          · rename_i hn
            rw [if_pos hn]
          · rename_i tp0 htp
            have h1 : db.team_players.find? (fun tp =>
                tp.team_id == team_id && tp.player_id == player_id) ≠ none := by
              simp [htp]
            rw [if_neg h1]
    · have hb : (team.user_id != user_id) = true := by simp [bne, howner]
      rw [if_pos hb, if_pos howner]

theorem bool_and_elim {a b : Bool} (h : (a && b) = true) : a = true ∧ b = true := by
  simp only [Bool.and_eq_true] at h
  exact h

theorem two_le_length_of_mem_ne {α : Type} [DecidableEq α] {l : List α} {a b : α}
    (ha : a ∈ l) (hb : b ∈ l) (hne : a ≠ b) : 2 ≤ l.length := by
  have hb₂ : b ∈ l.erase a := (List.mem_erase_of_ne (fun h => hne h.symm)).mpr hb
  have hpos : 0 < (l.erase a).length := List.length_pos.mpr (List.ne_nil_of_mem hb₂)
  have hlen : (l.erase a).length = l.length - 1 := List.length_erase_of_mem ha
  omega

theorem teamsHolding_le_one {db : DB} (hwf : WF db) (hexcl : ExclusivityInv db)
    (lid pid : Nat) : (teamsHolding db lid pid).length ≤ 1 := by
  by_contra hgt
  push_neg at hgt
  have hnd : (teamsHolding db lid pid).Nodup :=
    (List.Nodup.of_map _ hwf).filter _
  cases hl : teamsHolding db lid pid with
  | nil => rw [hl] at hgt; simp at hgt
  | cons t₁ rest =>
    cases rest with
    | nil => rw [hl] at hgt; simp at hgt
    | cons t₂ r =>
      rw [hl] at hnd
      have hne : t₁ ≠ t₂ := by
        have := List.pairwise_cons.mp hnd
        exact this.1 t₂ (List.mem_cons_self t₂ r)
      have ht₁ : t₁ ∈ teamsHolding db lid pid := by rw [hl]; simp
      have ht₂ : t₂ ∈ teamsHolding db lid pid := by rw [hl]; simp
      obtain ⟨ht₁m, hp₁⟩ := List.mem_filter.mp ht₁
      obtain ⟨ht₂m, hp₂⟩ := List.mem_filter.mp ht₂
      obtain ⟨hl₁, ha₁⟩ := bool_and_elim hp₁
      obtain ⟨hl₂, ha₂⟩ := bool_and_elim hp₂
      obtain ⟨s₁, hs₁m, hs₁⟩ := List.any_eq_true.mp ha₁
      obtain ⟨s₂, hs₂m, hs₂⟩ := List.any_eq_true.mp ha₂
      obtain ⟨hs₁t, hs₁p⟩ := bool_and_elim hs₁
      obtain ⟨hs₂t, hs₂p⟩ := bool_and_elim hs₂
      have hid : t₁.id ≠ t₂.id := by
        intro hEq
        exact hne (team_eq_of_id_eq hwf ht₁m ht₂m hEq)
      have hsne : s₁ ≠ s₂ := by
        intro hEq
        apply hid
        have e₁ : s₁.team_id = t₁.id := by simpa using hs₁t
        have e₂ : s₂.team_id = t₂.id := by simpa using hs₂t
        rw [← e₁, ← e₂, hEq]
      have hcont₁ : (leagueTeamIds db lid).contains s₁.team_id = true := by
        have e₁ : s₁.team_id = t₁.id := by simpa using hs₁t
        rw [e₁]
        exact List.elem_eq_true_of_mem
          (List.mem_map.mpr ⟨t₁, List.mem_filter.mpr ⟨ht₁m, hl₁⟩, rfl⟩)
      have hcont₂ : (leagueTeamIds db lid).contains s₂.team_id = true := by
        have e₂ : s₂.team_id = t₂.id := by simpa using hs₂t
        rw [e₂]
        exact List.elem_eq_true_of_mem
          (List.mem_map.mpr ⟨t₂, List.mem_filter.mpr ⟨ht₂m, hl₂⟩, rfl⟩)
      have hm₁ : s₁ ∈ db.team_players.filter (fun tp =>
          (leagueTeamIds db lid).contains tp.team_id && tp.player_id == pid) :=
        List.mem_filter.mpr ⟨hs₁m, by rw [hcont₁, hs₁p]; rfl⟩
      have hm₂ : s₂ ∈ db.team_players.filter (fun tp =>
          (leagueTeamIds db lid).contains tp.team_id && tp.player_id == pid) :=
        List.mem_filter.mpr ⟨hs₂m, by rw [hcont₂, hs₂p]; rfl⟩
      have h2 : 2 ≤ leagueSlotCount db lid pid :=
        two_le_length_of_mem_ne hm₁ hm₂ hsne
      have := hexcl lid pid
      omega

/-- C5: roster cap.  In every reachable ledger state, no team's roster
exceeds its league's `team_size`; and a draft whose earlier checks all
pass but whose team already holds `team_size` players is rejected with
RosterFull (the error raises before any insert, so the roster is
unchanged). -/
theorem roster_cap :
    (∀ db : DB, Reachable db → ∀ t ∈ db.teams, ∀ lg : LeagueRec,
      findLeague db t.league_id = some lg → rosterCount db t.id ≤ lg.team_size) ∧
    (∀ (db : DB) (team_id player_id user_id : Nat) (now : Int)
        (team : TeamRec) (league : LeagueRec),
      findTeam db team_id = some team → team.user_id = user_id →
      findLeague db team.league_id = some league →
      ¬now > league.draft_deadline →
      db.players.find? (fun p => p.id == player_id) ≠ none →
      db.tournament_players.find? (fun tp =>
        tp.tournament_id == league.tournament_id && tp.player_id == player_id) ≠ none →
      findLeagueDraft db league.id player_id = none →
      rosterCount db team_id = league.team_size →
      add_player_to_team db team_id player_id user_id now = .error .RosterFull) := by
  constructor
  · intro db h t ht lg hlg
    exact (reachable_invariants h).2.2 t ht lg hlg
  · intro db team_id player_id user_id now team league hteam howner hleague hdl hp hreg
      hdraft hsize
    rw [add_eval db team_id player_id user_id now team league hteam hleague]
    have h0 : ¬team.user_id ≠ user_id := fun hc => hc howner
    have h4 : ¬findLeagueDraft db league.id player_id ≠ none := fun hc => hc hdraft
    have h5 : rosterCount db team_id ≥ league.team_size := by omega
    rw [if_neg h0, if_neg hdl, if_neg hp, if_neg hreg, if_neg h4, if_pos h5]

/-- Witness for C5: the empty-ledger snapshot is reachable and respects
the cap, and drafting a ninth player onto the already-full team A of the
concrete snapshot returns RosterFull. -/
theorem roster_cap_witness :
    rosterCount dbW0 1 ≤ 2 ∧
    add_player_to_team dbW 1 9 10 0 = .error .RosterFull :=
  ⟨roster_cap.1 dbW0 (.init dbW0 (by unfold WF; decide) rfl)
      { id := 1, league_id := 0, user_id := 10, team_name := "A" } (by decide)
      { id := 0, tournament_id := 100, team_size := 2, draft_deadline := 50 } rfl,
    roster_cap.2 dbW 1 9 10 0
      { id := 1, league_id := 0, user_id := 10, team_name := "A" }
      { id := 0, tournament_id := 100, team_size := 2, draft_deadline := 50 }
      rfl rfl rfl (by decide) (by decide) (by decide) (by decide) rfl⟩

/-- C1: cross-team exclusivity.  In every reachable ledger state at most
one team of a league holds a given player; and a draft whose earlier
checks pass but whose player is already drafted by some team of the same
league is rejected with PlayerAlreadyDrafted (the error raises before
any insert, so the ledger is unchanged). -/
theorem cross_team_exclusivity :
    (∀ db : DB, Reachable db → ∀ league_id player_id : Nat,
      (teamsHolding db league_id player_id).length ≤ 1) ∧
    (∀ (db : DB) (team_id player_id user_id : Nat) (now : Int)
        (team : TeamRec) (league : LeagueRec),
      findTeam db team_id = some team → team.user_id = user_id →
      findLeague db team.league_id = some league →
      ¬now > league.draft_deadline →
      db.players.find? (fun p => p.id == player_id) ≠ none →
      db.tournament_players.find? (fun tp =>
        tp.tournament_id == league.tournament_id && tp.player_id == player_id) ≠ none →
      (∃ t ∈ db.teams, t.league_id = league.id ∧
        ∃ slot ∈ db.team_players, slot.team_id = t.id ∧ slot.player_id = player_id) →
      add_player_to_team db team_id player_id user_id now = .error .PlayerAlreadyDrafted) := by
  constructor
  · intro db h league_id player_id
    obtain ⟨hwf, hexcl, -⟩ := reachable_invariants h
    exact teamsHolding_le_one hwf hexcl league_id player_id
  · intro db team_id player_id user_id now team league hteam howner hleague hdl hp hreg
      hdrafted
    obtain ⟨t, htm, htl, slot, hsm, hst, hsp⟩ := hdrafted
    have hdraft : findLeagueDraft db league.id player_id ≠ none := by
      intro hnone
      have hall := List.find?_eq_none.mp hnone slot hsm
      apply hall
      have hcont : (leagueTeamIds db league.id).contains slot.team_id = true := by
        rw [hst]
        exact List.elem_eq_true_of_mem
          (List.mem_map.mpr ⟨t, List.mem_filter.mpr ⟨htm, by simp [htl]⟩, rfl⟩)
      rw [hcont, hsp]
      simp
    rw [add_eval db team_id player_id user_id now team league hteam hleague]
    have h0 : ¬team.user_id ≠ user_id := fun hc => hc howner
    rw [if_neg h0, if_neg hdl, if_neg hp, if_neg hreg, if_pos hdraft]

/-- Witness for C1: the exclusivity bound at the reachable empty-ledger
snapshot, and the rejection when team A's owner tries to draft player 7,
already held by team B. -/
theorem cross_team_exclusivity_witness :
    (teamsHolding dbW0 0 5).length ≤ 1 ∧
    add_player_to_team dbW 1 7 10 0 = .error .PlayerAlreadyDrafted :=
  ⟨cross_team_exclusivity.1 dbW0 (.init dbW0 (by unfold WF; decide) rfl) 0 5,
    cross_team_exclusivity.2 dbW 1 7 10 0
      { id := 1, league_id := 0, user_id := 10, team_name := "A" }
      { id := 0, tournament_id := 100, team_size := 2, draft_deadline := 50 }
      rfl rfl rfl (by decide) (by decide) (by decide)
      ⟨{ id := 2, league_id := 0, user_id := 11, team_name := "B" }, by decide, rfl,
        { team_id := 2, player_id := 7 }, by decide, rfl, rfl⟩⟩

/-- Counterexample to C2 as stated: at `now` exactly equal to the
deadline (50 ≥ 50) the handlers do not return DeadlineExpired — the code
gate is `now > deadline`, so a draft and a drop both go through at the
boundary instant. -/
theorem deadline_gate_counterexample :
    (50 : Int) ≥ 50 ∧
    (add_player_to_team dbW 2 9 11 50).isOk = true ∧
    (remove_player_from_team dbW 1 5 10 50).isOk = true :=
  ⟨by decide, by decide, by decide⟩

/-- C2 amended: once `now` is strictly after the league's
`draft_deadline`, every draft and drop call for an owned team of the
league returns DeadlineExpired (raising before any mutation, so the
ledger is unchanged); conversely a draft or drop can succeed only when
`now ≤ draft_deadline`. -/
theorem deadline_gate (db : DB) (team_id player_id user_id : Nat) (now : Int)
    (team : TeamRec) (league : LeagueRec)
    (hteam : findTeam db team_id = some team)
    (howner : team.user_id = user_id)
    (hleague : findLeague db team.league_id = some league) :
    (now > league.draft_deadline →
      add_player_to_team db team_id player_id user_id now = .error .DeadlineExpired ∧
      remove_player_from_team db team_id player_id user_id now = .error .DeadlineExpired) ∧
    (∀ db₂, add_player_to_team db team_id player_id user_id now = .ok db₂ →
      now ≤ league.draft_deadline) ∧
    (∀ db₂, remove_player_from_team db team_id player_id user_id now = .ok db₂ →
      now ≤ league.draft_deadline) := by
  have h0 : ¬team.user_id ≠ user_id := fun hc => hc howner
  refine ⟨fun hdl => ⟨?_, ?_⟩, ?_, ?_⟩
  · rw [add_eval db team_id player_id user_id now team league hteam hleague]
    rw [if_neg h0, if_pos hdl]
  · rw [remove_eval db team_id player_id user_id now team league hteam hleague]
    rw [if_neg h0, if_pos hdl]
  · intro db₂ hok
    obtain ⟨team₂, league₂, hteam₂, -, hleague₂, hdl₂, -, -, -⟩ := add_ok_spec hok
    rw [hteam] at hteam₂
    obtain rfl : team = team₂ := by simpa using hteam₂
    rw [hleague] at hleague₂
    obtain rfl : league = league₂ := by simpa using hleague₂
    exact hdl₂
  · intro db₂ hok
    obtain ⟨team₂, league₂, tp0, hteam₂, -, hleague₂, hdl₂, -, -⟩ := remove_ok_spec hok
    rw [hteam] at hteam₂
    obtain rfl : team = team₂ := by simpa using hteam₂
    rw [hleague] at hleague₂
    obtain rfl : league = league₂ := by simpa using hleague₂
    exact hdl₂

/-- Witness for the amended C2: one instant past the deadline (51 > 50)
both a draft for team B and a drop for team A return DeadlineExpired. -/
theorem deadline_gate_witness :
    add_player_to_team dbW 2 9 11 51 = .error .DeadlineExpired ∧
    remove_player_from_team dbW 1 5 10 51 = .error .DeadlineExpired :=
  ⟨((deadline_gate dbW 2 9 11 51
      { id := 2, league_id := 0, user_id := 11, team_name := "B" }
      { id := 0, tournament_id := 100, team_size := 2, draft_deadline := 50 }
      rfl rfl rfl).1 (by decide)).1,
    ((deadline_gate dbW 1 5 10 51
      { id := 1, league_id := 0, user_id := 10, team_name := "A" }
      { id := 0, tournament_id := 100, team_size := 2, draft_deadline := 50 }
      rfl rfl rfl).1 (by decide)).2⟩

/-- C7: draft fail-fast ordering.  For an existing team and league and an
existing player, the five preconditions are decided in the fixed order
ownership, deadline, tournament registration, cross-team exclusivity,
roster capacity: the first failing check alone determines the single
named error returned, whatever the state of the later checks, and when
all five pass the slot is inserted. -/
theorem draft_fail_fast (db : DB) (team_id player_id user_id : Nat) (now : Int)
    (team : TeamRec) (league : LeagueRec)
    (hteam : findTeam db team_id = some team)
    (hleague : findLeague db team.league_id = some league)
    (hp : db.players.find? (fun p => p.id == player_id) ≠ none) :
    (team.user_id ≠ user_id →
      add_player_to_team db team_id player_id user_id now = .error .Forbidden) ∧
    (team.user_id = user_id → now > league.draft_deadline →
      add_player_to_team db team_id player_id user_id now = .error .DeadlineExpired) ∧
    (team.user_id = user_id → ¬now > league.draft_deadline →
      db.tournament_players.find? (fun tp =>
        tp.tournament_id == league.tournament_id && tp.player_id == player_id) = none →
      add_player_to_team db team_id player_id user_id now = .error .PlayerNotEligible) ∧
    (team.user_id = user_id → ¬now > league.draft_deadline →
      db.tournament_players.find? (fun tp =>
        tp.tournament_id == league.tournament_id && tp.player_id == player_id) ≠ none →
      findLeagueDraft db league.id player_id ≠ none →
      add_player_to_team db team_id player_id user_id now = .error .PlayerAlreadyDrafted) ∧
    (team.user_id = user_id → ¬now > league.draft_deadline →
      db.tournament_players.find? (fun tp =>
        tp.tournament_id == league.tournament_id && tp.player_id == player_id) ≠ none →
      findLeagueDraft db league.id player_id = none →
      rosterCount db team_id ≥ league.team_size →
      add_player_to_team db team_id player_id user_id now = .error .RosterFull) ∧
    (team.user_id = user_id → ¬now > league.draft_deadline →
      db.tournament_players.find? (fun tp =>
        tp.tournament_id == league.tournament_id && tp.player_id == player_id) ≠ none →
      findLeagueDraft db league.id player_id = none →
      rosterCount db team_id < league.team_size →
      add_player_to_team db team_id player_id user_id now = .ok { db with team_players :=
        db.team_players ++ [{ team_id := team_id, player_id := player_id }] }) := by
  rw [add_eval db team_id player_id user_id now team league hteam hleague]
  refine ⟨fun hown => ?_, fun hown hdl => ?_, fun hown hdl hreg => ?_,
    fun hown hdl hreg hdr => ?_, fun hown hdl hreg hdr hfull => ?_,
    fun hown hdl hreg hdr hroom => ?_⟩
  · rw [if_pos hown]
  · have h0 : ¬team.user_id ≠ user_id := fun hc => hc hown
    rw [if_neg h0, if_pos hdl]
  · have h0 : ¬team.user_id ≠ user_id := fun hc => hc hown
    rw [if_neg h0, if_neg hdl, if_neg hp, if_pos hreg]
  · have h0 : ¬team.user_id ≠ user_id := fun hc => hc hown
    rw [if_neg h0, if_neg hdl, if_neg hp, if_neg hreg, if_pos hdr]
  · have h0 : ¬team.user_id ≠ user_id := fun hc => hc hown
    have h4 : ¬findLeagueDraft db league.id player_id ≠ none := fun hc => hc hdr
    rw [if_neg h0, if_neg hdl, if_neg hp, if_neg hreg, if_neg h4, if_pos hfull]
  · have h0 : ¬team.user_id ≠ user_id := fun hc => hc hown
    have h4 : ¬findLeagueDraft db league.id player_id ≠ none := fun hc => hc hdr
    have h5 : ¬rosterCount db team_id ≥ league.team_size := by omega
    rw [if_neg h0, if_neg hdl, if_neg hp, if_neg hreg, if_neg h4, if_neg h5]

/-- Witness for C7: each of the six branches fires at the concrete
snapshot — wrong owner, past deadline, unregistered player 20, already
drafted player 5, full team A, and a successful draft of player 9 onto
team B. -/
theorem draft_fail_fast_witness :
    add_player_to_team dbW 1 9 11 0 = .error .Forbidden ∧
    add_player_to_team dbW 2 9 11 51 = .error .DeadlineExpired ∧
    add_player_to_team dbW 2 20 11 0 = .error .PlayerNotEligible ∧
    add_player_to_team dbW 2 5 11 0 = .error .PlayerAlreadyDrafted ∧
    add_player_to_team dbW 1 9 10 0 = .error .RosterFull ∧
    add_player_to_team dbW 2 9 11 0 = .ok { dbW with team_players :=
      dbW.team_players ++ [{ team_id := 2, player_id := 9 }] } :=
  ⟨(draft_fail_fast dbW 1 9 11 0
      { id := 1, league_id := 0, user_id := 10, team_name := "A" }
      { id := 0, tournament_id := 100, team_size := 2, draft_deadline := 50 }
      rfl rfl (by decide)).1 (by decide),
    (draft_fail_fast dbW 2 9 11 51
      { id := 2, league_id := 0, user_id := 11, team_name := "B" }
      { id := 0, tournament_id := 100, team_size := 2, draft_deadline := 50 }
      rfl rfl (by decide)).2.1 rfl (by decide),
    (draft_fail_fast dbW 2 20 11 0
      { id := 2, league_id := 0, user_id := 11, team_name := "B" }
      { id := 0, tournament_id := 100, team_size := 2, draft_deadline := 50 }
      rfl rfl (by decide)).2.2.1 rfl (by decide) (by decide),
    (draft_fail_fast dbW 2 5 11 0
      { id := 2, league_id := 0, user_id := 11, team_name := "B" }
      { id := 0, tournament_id := 100, team_size := 2, draft_deadline := 50 }
      rfl rfl (by decide)).2.2.2.1 rfl (by decide) (by decide) (by decide),
    (draft_fail_fast dbW 1 9 10 0
      { id := 1, league_id := 0, user_id := 10, team_name := "A" }
      { id := 0, tournament_id := 100, team_size := 2, draft_deadline := 50 }
      rfl rfl (by decide)).2.2.2.2.1 rfl (by decide) (by decide) (by decide) (by decide),
    (draft_fail_fast dbW 2 9 11 0
      { id := 2, league_id := 0, user_id := 11, team_name := "B" }
      { id := 0, tournament_id := 100, team_size := 2, draft_deadline := 50 }
      rfl rfl (by decide)).2.2.2.2.2 rfl (by decide) (by decide) (by decide) (by decide)⟩

/-- C10: a draft for a player id matching no Player row returns the
NotFound error, decided after the ownership and deadline checks (those
errors still win) and before the registration check (the registration
table is unconstrained here); the error raises before any insert, so the
roster is unchanged. -/
theorem draft_player_not_found (db : DB) (team_id player_id user_id : Nat) (now : Int)
    (team : TeamRec) (league : LeagueRec)
    (hteam : findTeam db team_id = some team)
    (hleague : findLeague db team.league_id = some league)
    (hp : db.players.find? (fun p => p.id == player_id) = none) :
    (team.user_id = user_id → ¬now > league.draft_deadline →
      add_player_to_team db team_id player_id user_id now = .error .PlayerNotFound) ∧
    (team.user_id ≠ user_id →
      add_player_to_team db team_id player_id user_id now = .error .Forbidden) ∧
    (team.user_id = user_id → now > league.draft_deadline →
      add_player_to_team db team_id player_id user_id now = .error .DeadlineExpired) := by
  rw [add_eval db team_id player_id user_id now team league hteam hleague]
  refine ⟨fun hown hdl => ?_, fun hown => ?_, fun hown hdl => ?_⟩
  · have h0 : ¬team.user_id ≠ user_id := fun hc => hc hown
    rw [if_neg h0, if_neg hdl, if_pos hp]
  · rw [if_pos hown]
  · have h0 : ¬team.user_id ≠ user_id := fun hc => hc hown
    rw [if_neg h0, if_pos hdl]

/-- Witness for C10: player id 99 exists nowhere; the owner's in-time
draft on team B returns the player-not-found error. -/
theorem draft_player_not_found_witness :
    add_player_to_team dbW 2 99 11 0 = .error .PlayerNotFound :=
  (draft_player_not_found dbW 2 99 11 0
      { id := 2, league_id := 0, user_id := 11, team_name := "B" }
      { id := 0, tournament_id := 100, team_size := 2, draft_deadline := 50 }
      rfl rfl (by decide)).1 rfl (by decide)

/-! ### The rank-assignment pass -/

theorem map_score_assignRanksFrom : ∀ (i : Nat) (l : List TeamStanding),
    (assignRanksFrom i l).map (fun s => s.total_score) =
      l.map (fun s => s.total_score)
  | _, [] => rfl
  | i, s :: l => by
    simp only [assignRanksFrom, List.map_cons, map_score_assignRanksFrom (i + 1) l]
    congr 1
    split <;> rfl

theorem get?_assignRanksFrom : ∀ (i : Nat) (l : List TeamStanding) (j : Nat),
    (assignRanksFrom i l).get? j =
      (l.get? j).map (fun s =>
        if s.total_score.isSome then { s with rank := some (i + j + 1) }
        else { s with rank := none })
  | _, [], j => by simp [assignRanksFrom]
  | i, s :: l, 0 => by simp [assignRanksFrom]
  | i, s :: l, j + 1 => by
    simp only [assignRanksFrom, List.get?_cons_succ, get?_assignRanksFrom (i + 1) l j]
    congr 1
    funext t
    have harith : i + 1 + j + 1 = i + (j + 1) + 1 := by omega
    rw [harith]

theorem mem_assignRanksFrom : ∀ (i : Nat) (l : List TeamStanding) (x : TeamStanding),
    x ∈ assignRanksFrom i l →
      ∃ s ∈ l, x.players = s.players ∧ x.total_score = s.total_score ∧
        x.team_id = s.team_id
  | i, [], x => by simp [assignRanksFrom]
  | i, s :: l, x => by
    simp only [assignRanksFrom, List.mem_cons]
    rintro (hx | hx)
    · refine ⟨s, Or.inl rfl, ?_⟩
      rw [hx]
      split <;> exact ⟨rfl, rfl, rfl⟩
    · obtain ⟨s₀, hs₀, h⟩ := mem_assignRanksFrom (i + 1) l x hx
      exact ⟨s₀, Or.inr hs₀, h⟩

theorem standings_pairwise (db : DB) (league_id round_num : Nat) :
    (calculate_league_standings db league_id round_num).Pairwise
      (fun a b => scoreKeyLe a.total_score b.total_score = true) := by
  unfold calculate_league_standings
  split
  · exact List.Pairwise.nil
  · rename_i league hfl
    have htot : ∀ a b : TeamStanding, scoreKeyLe a.total_score b.total_score = false →
        scoreKeyLe b.total_score a.total_score = true :=
      fun a b h => scoreKeyLe_total _ _ h
    have htrans : ∀ a b c : TeamStanding, scoreKeyLe a.total_score b.total_score = true →
        scoreKeyLe b.total_score c.total_score = true →
        scoreKeyLe a.total_score c.total_score = true :=
      fun a b c h₁ h₂ => scoreKeyLe_trans _ _ _ h₁ h₂
    have hsorted := sortStable_pairwise htot htrans
      ((db.teams.filter (fun t => t.league_id == league_id)).map
        (buildStanding db league round_num))
    have h₁ : List.Pairwise (fun x y : Option Int => scoreKeyLe x y = true)
        ((sortStable (fun a b : TeamStanding => scoreKeyLe a.total_score b.total_score)
          ((db.teams.filter (fun t => t.league_id == league_id)).map
            (buildStanding db league round_num))).map (fun s => s.total_score)) :=
      List.pairwise_map.mpr hsorted
    rw [← map_score_assignRanksFrom 0] at h₁
    exact List.pairwise_map.mp h₁

theorem standings_eq_nil (db : DB) (league_id round_num : Nat)
    (hfl : findLeague db league_id = none) :
    calculate_league_standings db league_id round_num = [] := by
  unfold calculate_league_standings
  split
  · rfl
  · rename_i lg hlg
    rw [hfl] at hlg
    simp at hlg

theorem standings_eq (db : DB) (league_id round_num : Nat) (league : LeagueRec)
    (hfl : findLeague db league_id = some league) :
    calculate_league_standings db league_id round_num =
      assignRanksFrom 0
        (sortStable (fun a b => scoreKeyLe a.total_score b.total_score)
          ((db.teams.filter (fun t => t.league_id == league_id)).map
            (buildStanding db league round_num))) := by
  unfold calculate_league_standings
  split
  · rename_i hn
    rw [hfl] at hn
    simp at hn
  · rename_i lg hlg
    rw [hfl] at hlg
    obtain rfl : league = lg := by simpa using hlg
    rfl

/-- C4: standings order and rank.  In the standings list, teams with
defined scores come first in ascending score order, every unscored team
follows all scored teams, the rank of a scored team is its 1-based
position among scored teams (one plus the number of scored teams before
it), and every unscored team carries a null rank. -/
theorem standings_sorted_ranked (db : DB) (league_id round_num : Nat) :
    (∀ i j si sj, i < j →
      (calculate_league_standings db league_id round_num).get? i = some si →
      (calculate_league_standings db league_id round_num).get? j = some sj →
      ∀ x y, si.total_score = some x → sj.total_score = some y → x ≤ y) ∧
    (∀ i j si sj, i < j →
      (calculate_league_standings db league_id round_num).get? i = some si →
      (calculate_league_standings db league_id round_num).get? j = some sj →
      si.total_score = none → sj.total_score = none) ∧
    (∀ i si, (calculate_league_standings db league_id round_num).get? i = some si →
      si.rank =
        if si.total_score.isSome then
          some ((((calculate_league_standings db league_id round_num).take i).countP
            (fun s => s.total_score.isSome)) + 1)
        else none) := by
  have hpair := standings_pairwise db league_id round_num
  refine ⟨?_, ?_, ?_⟩
  · intro i j si sj hij hgi hgj x y hx hy
    obtain ⟨hi, hei⟩ := List.get?_eq_some.mp hgi
    obtain ⟨hj, hej⟩ := List.get?_eq_some.mp hgj
    have hR := List.pairwise_iff_get.mp hpair ⟨i, hi⟩ ⟨j, hj⟩ hij
    rw [hei, hej, hx, hy] at hR
    simpa [scoreKeyLe] using hR
  · intro i j si sj hij hgi hgj hnone
    obtain ⟨hi, hei⟩ := List.get?_eq_some.mp hgi
    obtain ⟨hj, hej⟩ := List.get?_eq_some.mp hgj
    have hR := List.pairwise_iff_get.mp hpair ⟨i, hi⟩ ⟨j, hj⟩ hij
    rw [hei, hej, hnone] at hR
    cases hsj : sj.total_score with
    | none => rfl
    | some y => rw [hsj] at hR; simp [scoreKeyLe] at hR
  · intro i si hgi
    cases hfl : findLeague db league_id with
    | none =>
      rw [standings_eq_nil db league_id round_num hfl] at hgi
      simp at hgi
    | some league =>
      have hgi₀ := hgi
      rw [standings_eq db league_id round_num league hfl] at hgi
      rw [get?_assignRanksFrom] at hgi
      obtain ⟨s₀, hs₀, hfs₀⟩ := Option.map_eq_some'.mp hgi
      cases hss : s₀.total_score.isSome with
      | false =>
        rw [hss] at hfs₀
        simp only [Bool.false_eq_true, if_false] at hfs₀
        have hrank : si.rank = none := by rw [← hfs₀]
        have hts : si.total_score = s₀.total_score := by rw [← hfs₀]
        rw [hrank, hts, if_neg (by simp [hss])]
      | true =>
        rw [hss] at hfs₀
        simp only [if_true] at hfs₀
        have hrank : si.rank = some (i + 1) := by rw [← hfs₀]; simp
        have hts : si.total_score = s₀.total_score := by rw [← hfs₀]
        obtain ⟨hi, hei⟩ := List.get?_eq_some.mp hgi₀
        have hlen : ((calculate_league_standings db league_id round_num).take i).length = i := by
          rw [List.length_take]
          omega
        have hall : ∀ a ∈ (calculate_league_standings db league_id round_num).take i,
            a.total_score.isSome = true := by
          intro a ha
          obtain ⟨⟨k, hk⟩, hak⟩ := List.mem_iff_get.mp ha
          have hki : k < i := by
            have := hk
            rw [List.length_take] at this
            omega
          have hget : (List.take i (calculate_league_standings db league_id round_num)).get
              ⟨k, hk⟩ = (calculate_league_standings db league_id round_num).get
              ⟨k, by omega⟩ := by
            exact List.get_take' _ ..
          have hR := List.pairwise_iff_get.mp hpair ⟨k, by omega⟩ ⟨i, hi⟩ hki
          rw [hei] at hR
          rw [hget] at hak
          rw [hak] at hR
          cases hat : a.total_score with
          | some v => rfl
          | none =>
            rw [hat] at hR
            cases hsi2 : si.total_score with
            | none => rw [hsi2] at hts; rw [← hts] at hss; simp at hss
            | some w => rw [hsi2] at hR; simp [scoreKeyLe] at hR
        have hcnt : ((calculate_league_standings db league_id round_num).take i).countP
            (fun s => s.total_score.isSome) = i := by
          rw [List.countP_eq_length.mpr hall, hlen]
        rw [hrank, hcnt, if_pos (by rw [hts]; exact hss)]


/-- Witness for C4 at the concrete snapshot: standings are
[A (-8, rank 1), C (-2, rank 2), B (unscored, rank none)]; the rank
equation instantiated at position 2 (team B) and the order fact -8 ≤ -2
between positions 0 and 1. -/
theorem standings_sorted_ranked_witness :
    (calculate_league_standings dbW 0 4).get? 2 = some sW_B ∧
    (sW_B.rank =
      if sW_B.total_score.isSome then
        some ((((calculate_league_standings dbW 0 4).take 2).countP
          (fun s => s.total_score.isSome)) + 1)
      else none) ∧
    (-8 : Int) ≤ -2 :=
  ⟨by decide,
    (standings_sorted_ranked dbW 0 4).2.2 2 sW_B (by decide),
    (standings_sorted_ranked dbW 0 4).1 0 1 sW_A sW_C (by decide) (by decide) (by decide)
      (-8) (-2) (by decide) (by decide)⟩

theorem filter_map_assignRanksFrom (v : Option Int) : ∀ (i : Nat) (l : List TeamStanding),
    ((assignRanksFrom i l).filter (fun s => s.total_score == v)).map (fun s => s.team_id) =
      (l.filter (fun s => s.total_score == v)).map (fun s => s.team_id)
  | _, [] => rfl
  | i, s :: l => by
    simp only [assignRanksFrom, List.filter_cons]
    have hts : (if s.total_score.isSome then { s with rank := some (i + 1) }
        else { s with rank := none }).total_score = s.total_score := by
      split <;> rfl
    have htid : (if s.total_score.isSome then { s with rank := some (i + 1) }
        else { s with rank := none }).team_id = s.team_id := by
      split <;> rfl
    rw [hts]
    cases hv : (s.total_score == v) with
    | false => simp only [Bool.false_eq_true, if_false, filter_map_assignRanksFrom v (i + 1) l]
    | true =>
      simp only [if_true, List.map_cons, htid, filter_map_assignRanksFrom v (i + 1) l]

/-- C9: standings determinism and stability.  Recomputing the standings
over the same snapshot yields the identical list, and for every score
value v the teams whose computed score equals v appear in the output in
exactly the input (team-table) order — the sort is stable, so ties and
the unscored block preserve team-creation order. -/
theorem standings_deterministic_stable (db : DB) (league_id round_num : Nat)
    (league : LeagueRec) (hfl : findLeague db league_id = some league) :
    calculate_league_standings db league_id round_num =
      calculate_league_standings db league_id round_num ∧
    ∀ v : Option Int,
      ((calculate_league_standings db league_id round_num).filter
        (fun s => s.total_score == v)).map (fun s => s.team_id) =
      ((db.teams.filter (fun t => t.league_id == league_id)).filter
        (fun t => calculate_team_score db t.id round_num == v)).map (fun t => t.id) := by
  refine ⟨rfl, fun v => ?_⟩
  rw [standings_eq db league_id round_num league hfl]
  rw [filter_map_assignRanksFrom v 0]
  have hp : ∀ a b : TeamStanding, (a.total_score == v) = true →
      (b.total_score == v) = true → scoreKeyLe a.total_score b.total_score = true := by
    intro a b ha hb
    have ha₂ : a.total_score = v := eq_of_beq ha
    have hb₂ : b.total_score = v := eq_of_beq hb
    rw [ha₂, hb₂]
    exact scoreKeyLe_refl v
  rw [filter_sortStable hp]
  rw [List.filter_map, List.map_map]
  rfl

/-- Witness for C9 at the concrete snapshot: the tie-class of the
undefined score (team B alone) and of -8 (team A alone) sit in input
order. -/
theorem standings_deterministic_stable_witness :
    ((calculate_league_standings dbW 0 4).filter
      (fun s => s.total_score == (none : Option Int))).map (fun s => s.team_id) =
    ((dbW.teams.filter (fun t => t.league_id == 0)).filter
      (fun t => calculate_team_score dbW t.id 4 == (none : Option Int))).map (fun t => t.id) :=
  (standings_deterministic_stable dbW 0 4
    { id := 0, tournament_id := 100, team_size := 2, draft_deadline := 50 } rfl).2 none

/-- Counterexample to C6 as stated: in the concrete snapshot player 7 has
no score row for round 4, yet the standings entry for that player carries
`made_cut = some true` — the handler defaults made_cut to True when the
record is absent (`score.made_cut if score else True`), while score and
position are null. -/
theorem standings_player_nullability_counterexample :
    lookupScore dbW 100 4 7 = none ∧
    (calculate_league_standings dbW 0 4).map
        (fun s => s.players.map (fun e => (e.score, e.position, e.made_cut))) =
      [[(some (-3), some 1, some true), (some (-5), some 2, some true)],
       [(some (-2), some 3, some true)],
       [(none, none, some true)]] :=
  ⟨by decide, by decide⟩

/-- C6 amended: in every standings entry each player entry carries name,
score, position and made_cut; when the player has no PlayerScore row for
the queried round, score and position are individually null but made_cut
defaults to True; when a row exists, the three fields are exactly the
row's (possibly null) columns. -/
theorem standings_player_nullability (db : DB) (league_id round_num : Nat)
    (league : LeagueRec) (hfl : findLeague db league_id = some league) :
    ∀ s ∈ calculate_league_standings db league_id round_num,
      ∀ e ∈ s.players,
        (lookupScore db league.tournament_id round_num e.player_id = none →
          e.score = none ∧ e.position = none ∧ e.made_cut = some true) ∧
        (∀ rec, lookupScore db league.tournament_id round_num e.player_id = some rec →
          e.score = rec.total_score ∧ e.position = rec.position ∧
            e.made_cut = rec.made_cut) := by
  intro s hs e he
  rw [standings_eq db league_id round_num league hfl] at hs
  obtain ⟨s₀, hs₀, hpl, -, -⟩ := mem_assignRanksFrom 0 _ s hs
  have hs₀m : s₀ ∈ (db.teams.filter (fun t => t.league_id == league_id)).map
      (buildStanding db league round_num) := mem_sortStable.mp hs₀
  obtain ⟨t, htm, hbuild⟩ := List.mem_map.mp hs₀m
  rw [hpl, ← hbuild] at he
  have he₂ : e ∈ (teamRoster db t.id).map
      (playerEntry db league.tournament_id round_num) := he
  obtain ⟨tp, htp, hpe⟩ := List.mem_map.mp he₂
  constructor
  · intro hnone
    rw [← hpe] at hnone ⊢
    have hnone₂ : lookupScore db league.tournament_id round_num tp.player_id = none :=
      hnone
    simp [playerEntry, hnone₂]
  · intro rec hrec
    rw [← hpe] at hrec ⊢
    have hrec₂ : lookupScore db league.tournament_id round_num tp.player_id = some rec :=
      hrec
    simp [playerEntry, hrec₂]

/-- Witness for the amended C6: team B's entry for player 7 (no score
row) has null score and position but made_cut = true; team A's entry for
player 5 carries the row's values. -/
theorem standings_player_nullability_witness :
    ({ player_id := 7, player_name := "Cy Adams", score := none, position := none,
        made_cut := some true : PlayerStanding }.score = none ∧
      { player_id := 7, player_name := "Cy Adams", score := none, position := none,
        made_cut := some true : PlayerStanding }.position = none ∧
      { player_id := 7, player_name := "Cy Adams", score := none, position := none,
        made_cut := some true : PlayerStanding }.made_cut = some true) :=
  (standings_player_nullability dbW 0 4
      { id := 0, tournament_id := 100, team_size := 2, draft_deadline := 50 } rfl
      sW_B (by decide)
      { player_id := 7, player_name := "Cy Adams", score := none, position := none,
        made_cut := some true } (by decide)).1 (by decide)

theorem available_ok_spec {db : DB} {team_id user_id : Nat} {res : List PlayerRec}
    (h : get_available_players db team_id user_id = .ok res) :
    ∃ team league,
      findTeam db team_id = some team ∧
      findLeague db team.league_id = some league ∧
      res = sortStable (fun a b => strLe a.last_name b.last_name)
        (db.players.filter (fun p =>
          (((db.tournament_players.filter (fun tp =>
              tp.tournament_id == league.tournament_id)).map
            (fun tp => tp.player_id)).filter
            (fun pid => !((db.team_players.filter (fun tp =>
              (leagueTeamIds db league.id).contains tp.team_id)).map
                (fun tp => tp.player_id)).contains pid)).contains p.id)) := by
  unfold get_available_players at h
  split at h
  · simp at h
  rename_i team hteam
  split at h
  · simp at h
  rename_i m hm
  split at h
  · simp at h
  rename_i league hleague
  exact ⟨team, league, hteam, hleague, by simpa using h.symm⟩

theorem available_pred_iff (db : DB) (league : LeagueRec) (p : PlayerRec) :
    ((((db.tournament_players.filter (fun tp =>
        tp.tournament_id == league.tournament_id)).map
      (fun tp => tp.player_id)).filter
      (fun pid => !((db.team_players.filter (fun tp =>
        (leagueTeamIds db league.id).contains tp.team_id)).map
          (fun tp => tp.player_id)).contains pid)).contains p.id) = true ↔
    ((∃ reg ∈ db.tournament_players,
        reg.tournament_id = league.tournament_id ∧ reg.player_id = p.id) ∧
      ¬(∃ t ∈ db.teams, t.league_id = league.id ∧
        ∃ slot ∈ db.team_players, slot.team_id = t.id ∧ slot.player_id = p.id)) := by
  constructor
  · intro h
    have hmem : p.id ∈ ((db.tournament_players.filter (fun tp =>
        tp.tournament_id == league.tournament_id)).map (fun tp => tp.player_id)).filter
        (fun pid => !((db.team_players.filter (fun tp =>
          (leagueTeamIds db league.id).contains tp.team_id)).map
            (fun tp => tp.player_id)).contains pid) := by simpa using h
    obtain ⟨hreg, hnd⟩ := List.mem_filter.mp hmem
    obtain ⟨reg, hregm, hregid⟩ := List.mem_map.mp hreg
    obtain ⟨hregmem, hregt⟩ := List.mem_filter.mp hregm
    refine ⟨⟨reg, hregmem, by simpa using hregt, hregid⟩, ?_⟩
    rintro ⟨t, htm, htl, slot, hsm, hst, hsp⟩
    have hdr : p.id ∈ (db.team_players.filter (fun tp =>
        (leagueTeamIds db league.id).contains tp.team_id)).map (fun tp => tp.player_id) := by
      refine List.mem_map.mpr ⟨slot, List.mem_filter.mpr ⟨hsm, ?_⟩, hsp⟩
      rw [hst]
      exact List.elem_eq_true_of_mem
        (List.mem_map.mpr ⟨t, List.mem_filter.mpr ⟨htm, by simp [htl]⟩, rfl⟩)
    have hnd₂ : (!((db.team_players.filter (fun tp =>
        (leagueTeamIds db league.id).contains tp.team_id)).map
          (fun tp => tp.player_id)).contains p.id) = true := hnd
    have hsome : ((db.team_players.filter (fun tp =>
        (leagueTeamIds db league.id).contains tp.team_id)).map
          (fun tp => tp.player_id)).contains p.id = true :=
      List.elem_eq_true_of_mem hdr
    rw [hsome] at hnd₂
    simp at hnd₂
  · rintro ⟨⟨reg, hregmem, hregt, hregid⟩, hnd⟩
    have hndr : p.id ∉ (db.team_players.filter (fun tp =>
        (leagueTeamIds db league.id).contains tp.team_id)).map (fun tp => tp.player_id) := by
      intro hin
      obtain ⟨slot, hsm, hsp⟩ := List.mem_map.mp hin
      obtain ⟨hsmem, hscont⟩ := List.mem_filter.mp hsm
      have : slot.team_id ∈ leagueTeamIds db league.id := by simpa using hscont
      obtain ⟨t, htf, htid⟩ := List.mem_map.mp this
      obtain ⟨htmem, htl⟩ := List.mem_filter.mp htf
      exact hnd ⟨t, htmem, by simpa using htl, slot, hsmem, htid.symm, hsp⟩
    have : p.id ∈ ((db.tournament_players.filter (fun tp =>
        tp.tournament_id == league.tournament_id)).map (fun tp => tp.player_id)).filter
        (fun pid => !((db.team_players.filter (fun tp =>
          (leagueTeamIds db league.id).contains tp.team_id)).map
            (fun tp => tp.player_id)).contains pid) := by
      refine List.mem_filter.mpr ⟨?_, ?_⟩
      · exact List.mem_map.mpr ⟨reg, List.mem_filter.mpr ⟨hregmem, by simp [hregt]⟩, hregid⟩
      · show (!((db.team_players.filter (fun tp =>
            (leagueTeamIds db league.id).contains tp.team_id)).map
              (fun tp => tp.player_id)).contains p.id) = true
        simpa using hndr
    exact List.elem_eq_true_of_mem this


theorem available_mem_sorted (db : DB) (team_id user_id : Nat) (team : TeamRec)
    (league : LeagueRec) (res : List PlayerRec)
    (hteam : findTeam db team_id = some team)
    (hleague : findLeague db team.league_id = some league)
    (hok : get_available_players db team_id user_id = .ok res) :
    (∀ p : PlayerRec, p ∈ res ↔ p ∈ db.players ∧
      (∃ reg ∈ db.tournament_players,
        reg.tournament_id = league.tournament_id ∧ reg.player_id = p.id) ∧
      ¬(∃ t ∈ db.teams, t.league_id = league.id ∧
        ∃ slot ∈ db.team_players, slot.team_id = t.id ∧ slot.player_id = p.id)) ∧
    res.Pairwise (fun a b => strLe a.last_name b.last_name = true) := by
  obtain ⟨team₂, league₂, hteam₂, hleague₂, hres⟩ := available_ok_spec hok
  rw [hteam] at hteam₂
  obtain rfl : team = team₂ := by simpa using hteam₂
  rw [hleague] at hleague₂
  obtain rfl : league = league₂ := by simpa using hleague₂
  constructor
  · intro p
    rw [hres, mem_sortStable, List.mem_filter]
    constructor
    · rintro ⟨hp, hq⟩
      exact ⟨hp, (available_pred_iff db league p).mp hq⟩
    · rintro ⟨hp, h₁, h₂⟩
      exact ⟨hp, (available_pred_iff db league p).mpr ⟨h₁, h₂⟩⟩
  · rw [hres]
    have htot : ∀ a b : PlayerRec, strLe a.last_name b.last_name = false →
        strLe b.last_name a.last_name = true :=
      fun a b h => charListLe_total _ _ h
    have htrans : ∀ a b c : PlayerRec, strLe a.last_name b.last_name = true →
        strLe b.last_name c.last_name = true → strLe a.last_name c.last_name = true :=
      fun a b c h₁ h₂ => charListLe_trans _ _ _ h₁ h₂
    exact sortStable_pairwise htot htrans _

theorem drop_reappears (db : DB) (team_id player_id user_id t₂id user₂id : Nat)
    (now : Int) (db₂ : DB) (team t₂ : TeamRec) (league : LeagueRec)
    (res₂ : List PlayerRec) (p : PlayerRec)
    (hdrop : remove_player_from_team db team_id player_id user_id now = .ok db₂)
    (hteam : findTeam db team_id = some team)
    (hleague : findLeague db team.league_id = some league)
    (hcount : leagueSlotCount db league.id player_id ≤ 1)
    (hpmem : p ∈ db.players) (hpid : p.id = player_id)
    (hteam₂ : findTeam db₂ t₂id = some t₂)
    (ht₂l : t₂.league_id = team.league_id)
    (hok₂ : get_available_players db₂ t₂id user₂id = .ok res₂)
    (hreg : ∃ reg ∈ db.tournament_players,
      reg.tournament_id = league.tournament_id ∧ reg.player_id = p.id) :
    p ∈ res₂ := by
  obtain ⟨team₃, league₃, tp0, hteam₃, -, hleague₃, -, hslot, hdb₂⟩ := remove_ok_spec hdrop
  rw [hteam] at hteam₃
  obtain rfl : team = team₃ := by simpa using hteam₃
  rw [hleague] at hleague₃
  obtain rfl : league = league₃ := by simpa using hleague₃
  subst hdb₂
  have hleague₄ : findLeague { db with team_players := db.team_players.eraseP (fun tp =>
      tp.team_id == team_id && tp.player_id == player_id) } t₂.league_id = some league := by
    rw [ht₂l]
    exact hleague
  have hmem := (available_mem_sorted _ t₂id user₂id t₂ league res₂ hteam₂ hleague₄ hok₂).1 p
  rw [hmem]
  refine ⟨hpmem, hreg, ?_⟩
  rintro ⟨t, htm, htl, slot, hsm, hst, hsp⟩
  -- slot survives the erase although at most one league slot held the player
  have hq0 : (tp0.team_id == team_id && tp0.player_id == player_id) = true := by
    simpa using List.find?_some hslot
  have htpmem : tp0 ∈ db.team_players := List.mem_of_find?_eq_some hslot
  obtain ⟨hq0t, hq0p⟩ := bool_and_elim hq0
  have hlid : league.id = team.league_id := by simpa using List.find?_some hleague
  have hteamid : team.id = team_id := by simpa using List.find?_some hteam
  have hcontain : (leagueTeamIds db league.id).contains team_id = true := by
    rw [← hteamid]
    exact List.elem_eq_true_of_mem (List.mem_map.mpr
      ⟨team, List.mem_filter.mpr ⟨List.mem_of_find?_eq_some hteam, by simp [hlid.symm]⟩, rfl⟩)
  have hpred : ∀ x : TeamPlayerRec, (x.team_id == team_id && x.player_id == player_id) = true →
      ((leagueTeamIds db league.id).contains x.team_id && x.player_id == player_id) = true := by
    intro x hx
    obtain ⟨hxt, hxp⟩ := bool_and_elim hx
    have : x.team_id = team_id := by simpa using hxt
    rw [this, hcontain, hxp]
    rfl
  obtain ⟨a, l₁, l₂, hl₁, hqa, hsplit, herase⟩ :=
    List.exists_of_eraseP (p := fun tp : TeamPlayerRec =>
      tp.team_id == team_id && tp.player_id == player_id) htpmem (by exact hq0)
  have hc₂ : (db.team_players.filter (fun tp =>
      (leagueTeamIds db league.id).contains tp.team_id && tp.player_id == player_id)).length
      ≤ 1 := hcount
  rw [hsplit] at hc₂
  rw [List.filter_append, List.filter_cons] at hc₂
  rw [if_pos (hpred a hqa)] at hc₂
  rw [List.length_append] at hc₂
  simp only [List.length_cons] at hc₂
  have hl₁0 : (l₁.filter (fun tp =>
      (leagueTeamIds db league.id).contains tp.team_id && tp.player_id == player_id)).length
      = 0 := by omega
  have hl₂0 : (l₂.filter (fun tp =>
      (leagueTeamIds db league.id).contains tp.team_id && tp.player_id == player_id)).length
      = 0 := by omega
  -- slot is a member of l₁ ++ l₂ and satisfies the league predicate
  have hsm₂ : slot ∈ l₁ ++ l₂ := by
    have : slot ∈ db.team_players.eraseP (fun tp =>
        tp.team_id == team_id && tp.player_id == player_id) := hsm
    rw [herase] at this
    exact this
  have hslotpred : ((leagueTeamIds db league.id).contains slot.team_id
      && slot.player_id == player_id) = true := by
    have hcontslot : (leagueTeamIds db league.id).contains slot.team_id = true := by
      rw [hst]
      exact List.elem_eq_true_of_mem (List.mem_map.mpr
        ⟨t, List.mem_filter.mpr ⟨htm, by simp [htl]⟩, rfl⟩)
    rw [hcontslot]
    rw [hsp, ← hpid]  -- slot.player_id = p.id = player_id ... careful direction
    simp [hpid]
  rcases List.mem_append.mp hsm₂ with hin | hin
  · have : slot ∈ l₁.filter (fun tp =>
        (leagueTeamIds db league.id).contains tp.team_id && tp.player_id == player_id) :=
      List.mem_filter.mpr ⟨hin, hslotpred⟩
    have := List.length_pos.mpr (List.ne_nil_of_mem this)
    omega
  · have : slot ∈ l₂.filter (fun tp =>
        (leagueTeamIds db league.id).contains tp.team_id && tp.player_id == player_id) :=
      List.mem_filter.mpr ⟨hin, hslotpred⟩
    have := List.length_pos.mpr (List.ne_nil_of_mem this)
    omega


/-- C8: available players.  For a resolved team and league, a player
appears in the available-players result iff they are registered for the
league's tournament and not currently drafted by any team of that
league, and the result is ordered by surname; consequently, after a
successful drop of a league's only slot for a player, that player is
registered and undrafted again, so they appear in the available list of
every team of the league (the slot bound holds at reachable states by
the exclusivity invariant). -/
theorem available_players_spec :
    (∀ (db : DB) (team_id user_id : Nat) (team : TeamRec) (league : LeagueRec)
        (res : List PlayerRec),
      findTeam db team_id = some team →
      findLeague db team.league_id = some league →
      get_available_players db team_id user_id = .ok res →
      ((∀ p : PlayerRec, p ∈ res ↔ p ∈ db.players ∧
        (∃ reg ∈ db.tournament_players,
          reg.tournament_id = league.tournament_id ∧ reg.player_id = p.id) ∧
        ¬(∃ t ∈ db.teams, t.league_id = league.id ∧
          ∃ slot ∈ db.team_players, slot.team_id = t.id ∧ slot.player_id = p.id)) ∧
       res.Pairwise (fun a b => strLe a.last_name b.last_name = true))) ∧
    (∀ (db : DB) (team_id player_id user_id t₂id user₂id : Nat) (now : Int) (db₂ : DB)
        (team t₂ : TeamRec) (league : LeagueRec) (res₂ : List PlayerRec) (p : PlayerRec),
      remove_player_from_team db team_id player_id user_id now = .ok db₂ →
      findTeam db team_id = some team →
      findLeague db team.league_id = some league →
      leagueSlotCount db league.id player_id ≤ 1 →
      p ∈ db.players → p.id = player_id →
      (∃ reg ∈ db.tournament_players,
        reg.tournament_id = league.tournament_id ∧ reg.player_id = p.id) →
      findTeam db₂ t₂id = some t₂ →
      t₂.league_id = team.league_id →
      get_available_players db₂ t₂id user₂id = .ok res₂ →
      p ∈ res₂) :=
  ⟨fun db team_id user_id team league res hteam hleague hok =>
      available_mem_sorted db team_id user_id team league res hteam hleague hok,
    fun db team_id player_id user_id t₂id user₂id now db₂ team t₂ league res₂ p hdrop
        hteam hleague hcount hpmem hpid hreg hteam₂ ht₂l hok₂ =>
      drop_reappears db team_id player_id user_id t₂id user₂id now db₂ team t₂ league
        res₂ p hdrop hteam hleague hcount hpmem hpid hteam₂ ht₂l hok₂ hreg⟩

/-- Witness for C8: at the concrete snapshot player 9 is the one
available player for team A; and after team A drops player 5, player 5
appears in team B's available list. -/
theorem available_players_spec_witness :
    ({ id := 9, last_name := "Zed", full_name := "Ed Zed" } : PlayerRec) ∈
      [({ id := 9, last_name := "Zed", full_name := "Ed Zed" } : PlayerRec)] ∧
    ({ id := 5, last_name := "Smith", full_name := "Al Smith" } : PlayerRec) ∈
      [({ id := 5, last_name := "Smith", full_name := "Al Smith" } : PlayerRec),
        { id := 9, last_name := "Zed", full_name := "Ed Zed" }] :=
  ⟨((available_players_spec.1 dbW 1 10
      { id := 1, league_id := 0, user_id := 10, team_name := "A" }
      { id := 0, tournament_id := 100, team_size := 2, draft_deadline := 50 }
      [{ id := 9, last_name := "Zed", full_name := "Ed Zed" }]
      rfl rfl rfl).1
      { id := 9, last_name := "Zed", full_name := "Ed Zed" }).mpr
      ⟨by decide, ⟨{ tournament_id := 100, player_id := 9 }, by decide, rfl, rfl⟩,
        by decide⟩,
    available_players_spec.2 dbW 1 5 10 2 11 0
      { dbW with team_players := [{ team_id := 1, player_id := 6 },
          { team_id := 2, player_id := 7 }, { team_id := 3, player_id := 8 }] }
      { id := 1, league_id := 0, user_id := 10, team_name := "A" }
      { id := 2, league_id := 0, user_id := 11, team_name := "B" }
      { id := 0, tournament_id := 100, team_size := 2, draft_deadline := 50 }
      [{ id := 5, last_name := "Smith", full_name := "Al Smith" },
        { id := 9, last_name := "Zed", full_name := "Ed Zed" }]
      { id := 5, last_name := "Smith", full_name := "Al Smith" }
      rfl rfl rfl (by decide) (by decide) rfl
      ⟨{ tournament_id := 100, player_id := 5 }, by decide, rfl, rfl⟩
      rfl rfl rfl⟩
